import Mathlib

/-!
Verification of the BinAssist persistence layer (`analysis_db_service.py`,
`settings_service.py`) against its natural-language specification.

The Python code is shallowly embedded: SQLite tables become Lean lists of
row structures, every store operation becomes an explicit state-passing
function translated statement-by-statement from the source, and the opaque
JSON documents (native message payloads, tool arguments) become an inductive
`Json` type.  Python strings are modelled as `List Char` (named `Str`) so
that the string manipulations of the display formatter (`strip`, `find`,
`split`, `replace`, slicing) are executable and provable by induction.
Python code that can raise is embedded in `Except Unit`; a returned
`Except.error ()` models an uncaught Python exception at that point.
-/

namespace BinAssist

/-- Python strings, modelled as lists of characters. -/
abbrev Str := List Char

/-- Coerce a Lean string literal to the `Str` model. -/
def str (s : String) : Str := s.data

/-- The whitespace predicate of Python `str.strip()` (restricted to the ASCII
whitespace characters that occur in this code base). -/
def isWs (c : Char) : Bool := c = ' ' || c = '\t' || c = '\n' || c = '\r'

/-- Left part of Python `str.strip()`: drop leading whitespace. -/
def stripL (s : Str) : Str := s.dropWhile isWs

/-- Right part of Python `str.strip()`: drop trailing whitespace. -/
def stripR (s : Str) : Str := (s.reverse.dropWhile isWs).reverse

/-- Python `str.strip()`. -/
def pyStrip (s : Str) : Str := stripL (stripR s)

/-- Python `str.startswith(pat)` (first argument is the pattern). -/
def strStarts : Str → Str → Bool
  | [], _ => true
  | _ :: _, [] => false
  | p :: ps, c :: cs => p = c && strStarts ps cs

/-- Python `pat in s` for strings: substring occurrence. -/
def strContains (pat : Str) : Str → Bool
  | [] => strStarts pat []
  | c :: cs => strStarts pat (c :: cs) || strContains pat cs

/-- Python `s.find(c)` for a single character, as an optional index
(the caller's `!= -1` guard becomes a `none` check). -/
def charIdx (c : Char) : Str → Option Nat
  | [] => none
  | d :: ds => if d = c then some 0 else (charIdx c ds).map (· + 1)

/-- The part of `s` before the first occurrence of `sep`
(Python `s.split(sep)[0]` when `sep` occurs in `s`). -/
def beforeFirst (sep : Str) : Str → Str
  | [] => []
  | c :: cs => if strStarts sep (c :: cs) then [] else c :: beforeFirst sep cs

/-- Fuelled scanner for `replaceAll`; the fuel (initially the input length,
which always suffices) makes the recursion structural. -/
def replaceAllF (p : Char) (ps rep : Str) : Nat → Str → Str
  | _, [] => []
  | 0, s => s
  | fuel + 1, c :: cs =>
      if strStarts (p :: ps) (c :: cs) then
        rep ++ replaceAllF p ps rep fuel (cs.drop ps.length)
      else
        c :: replaceAllF p ps rep fuel cs

/-- Python `s.replace(pat, rep)` for a non-empty pattern `p :: ps`:
left-to-right, non-overlapping replacement of every occurrence. -/
def replaceAll (p : Char) (ps rep s : Str) : Str :=
  replaceAllF p ps rep s.length s

/-- Python `sep.join(parts)`. -/
def joinSep (sep : Str) : List Str → Str
  | [] => []
  | [x] => x
  | x :: y :: rest => x ++ sep ++ joinSep sep (y :: rest)

/-- Decimal rendering of a natural number (Python `str(n)` for `n ≥ 0`). -/
def natRepr (n : Nat) : Str := (Nat.repr n).data

/-- Decimal rendering of an integer (Python `str(n)`/`f-string` of an int). -/
def intRepr (n : Int) : Str :=
  if n < 0 then '-' :: natRepr n.natAbs else natRepr n.natAbs

/-! ## JSON values

The opaque structured documents of the store (native message payloads, tool
arguments, cached context blobs).  Numbers are modelled as integers: the
payloads this code manipulates contain only integral numbers, and fractional
JSON numbers (Python floats) are outside the shallow embedding. -/

/-- A JSON document, as produced by Python `json.loads`. -/
inductive Json where
  | jnull : Json
  | jbool : Bool → Json
  | jint : Int → Json
  | jstr : Str → Json
  | jarr : List Json → Json
  | jobj : List (Str × Json) → Json

/-- Python truthiness (`if x:`) of a JSON value. -/
def pyTruthy : Json → Bool
  | .jnull => false
  | .jbool b => b
  | .jint n => n != 0
  | .jstr s => !s.isEmpty
  | .jarr l => !l.isEmpty
  | .jobj l => !l.isEmpty

/-- Key membership test restricted to dictionaries (used after an
`isinstance(x, dict)` check, which cannot raise). -/
def jsonHasKey (j : Json) (k : Str) : Bool :=
  match j with
  | .jobj kvs => kvs.any (fun kv => kv.1 == k)
  | _ => false

/-- `isinstance(x, dict)`. -/
def jsonIsDict : Json → Bool
  | .jobj _ => true
  | _ => false

/-- `isinstance(x, str)`. -/
def jsonIsStr : Json → Bool
  | .jstr _ => true
  | _ => false

/-- Lookup of a key in a dictionary value (Python subscription `d[k]`);
raises (`error`) on a missing key or a non-dict receiver. -/
def pyIndex (j : Json) (k : Str) : Except Unit Json :=
  match j with
  | .jobj kvs =>
      match kvs.find? (fun kv => kv.1 == k) with
      | some kv => .ok kv.2
      | none => .error ()
  | _ => .error ()

/-- Python `d.get(k, default)`; raises (`AttributeError`) when the receiver
is not a dict. -/
def pyDictGet (j : Json) (k : Str) (d : Json) : Except Unit Json :=
  match j with
  | .jobj kvs =>
      match kvs.find? (fun kv => kv.1 == k) with
      | some kv => .ok kv.2
      | none => .ok d
  | _ => .error ()

/-- Python `'lit' in x` for a string literal `k` and an arbitrary value `x`:
key membership for dicts, element membership for lists (a string compares
equal only to an equal string), substring test for strings; raises
(`TypeError`) on non-container values. -/
def pyInStr (k : Str) (j : Json) : Except Unit Bool :=
  match j with
  | .jobj kvs => .ok (kvs.any (fun kv => kv.1 == k))
  | .jarr l =>
      .ok (l.any (fun e => match e with | .jstr s => s == k | _ => false))
  | .jstr s => .ok (strContains k s)
  | _ => .error ()

/-- Python iteration `for x in j`: lists yield their elements, strings yield
their characters as one-character strings, dicts yield their keys; other
values raise (`TypeError`). -/
def pyIter : Json → Except Unit (List Json)
  | .jarr l => .ok l
  | .jstr s => .ok (s.map (fun c => .jstr [c]))
  | .jobj kvs => .ok (kvs.map (fun kv => .jstr kv.1))
  | _ => .error ()

mutual

/-- Python `repr(x)` of a JSON value: like `str(x)` but strings are quoted. -/
def pyReprOfJson : Json → Str
  | .jnull => str "None"
  | .jbool b => if b then str "True" else str "False"
  | .jint n => intRepr n
  | .jstr s => '\'' :: s ++ ['\'']
  | .jarr l => '[' :: joinSep (str ", ") (pyReprList l) ++ [']']
  | .jobj kvs => '\x7b' :: joinSep (str ", ") (pyReprKVs kvs) ++ ['\x7d']

/-- `repr` of each element of a list. -/
def pyReprList : List Json → List Str
  | [] => []
  | j :: js => pyReprOfJson j :: pyReprList js

/-- `repr` of each `key: value` entry of a dict. -/
def pyReprKVs : List (Str × Json) → List Str
  | [] => []
  | kv :: kvs =>
      ('\'' :: kv.1 ++ ['\''] ++ str ": " ++ pyReprOfJson kv.2) :: pyReprKVs kvs

end

/-- Python `str(x)` of a JSON value: strings render bare, every other value
renders as its `repr`. -/
def pyStrOfJson : Json → Str
  | .jstr s => s
  | j => pyReprOfJson j

/-! ## `json.loads`

A JSON parser sufficient for the argument strings this code feeds through
`json.loads` (objects, arrays, strings with the common escapes, integers,
booleans, null).  Fractional numbers are rejected (`none`), matching the
model's restriction of numbers to integers.  A `none` result models a raised
`json.JSONDecodeError`. -/

/-- JSON structural whitespace. -/
def jsonSkipWs (s : Str) : Str := s.dropWhile isWs

/-- Value of a hexadecimal digit. -/
def hexVal (c : Char) : Option Nat :=
  if '0' ≤ c ∧ c ≤ '9' then some (c.toNat - '0'.toNat)
  else if 'a' ≤ c ∧ c ≤ 'f' then some (c.toNat - 'a'.toNat + 10)
  else if 'A' ≤ c ∧ c ≤ 'F' then some (c.toNat - 'A'.toNat + 10)
  else none

/-- Parse the body of a JSON string literal (after the opening quote),
returning the decoded characters and the rest of the input. -/
def parseStrBody : Str → Option (Str × Str)
  | [] => none
  | c :: cs =>
      if c = '"' then some ([], cs)
      else if c = '\\' then
        match cs with
        | [] => none
        | 'u' :: a :: b :: c2 :: d :: rest => do
            let va ← hexVal a
            let vb ← hexVal b
            let vc ← hexVal c2
            let vd ← hexVal d
            let code := ((va * 16 + vb) * 16 + vc) * 16 + vd
            let ch := Char.ofNat code
            let (tl, rem) ← parseStrBody rest
            some (ch :: tl, rem)
        | e :: es => do
            let ch ← match e with
              | '"' => some '"'
              | '\\' => some '\\'
              | '/' => some '/'
              | 'n' => some '\n'
              | 't' => some '\t'
              | 'r' => some '\r'
              | 'b' => some (Char.ofNat 8)
              | 'f' => some (Char.ofNat 12)
              | _ => none
            let (tl, rem) ← parseStrBody es
            some (ch :: tl, rem)
      else do
        let (tl, rem) ← parseStrBody cs
        some (c :: tl, rem)

/-- Is `c` a decimal digit? -/
def isDigit (c : Char) : Bool := '0' ≤ c && c ≤ '9'

/-- Consume a run of decimal digits into an accumulator. -/
def digitsAcc : Str → Nat → Nat × Str
  | [], acc => (acc, [])
  | c :: cs, acc =>
      if isDigit c then digitsAcc cs (acc * 10 + (c.toNat - '0'.toNat))
      else (acc, c :: cs)

/-- Parse a non-empty run of decimal digits. -/
def parseDigits (s : Str) : Option (Nat × Str) :=
  match s with
  | [] => none
  | c :: _ => if isDigit c then some (digitsAcc s 0) else none

mutual

/-- Parse one JSON value; the fuel bounds nesting plus element count. -/
def parseVal : Nat → Str → Option (Json × Str)
  | 0, _ => none
  | fuel + 1, s =>
      match jsonSkipWs s with
      | [] => none
      | c :: cs =>
          if c = '"' then
            (parseStrBody cs).map (fun p => (.jstr p.1, p.2))
          else if c = '[' then
            match jsonSkipWs cs with
            | ']' :: rest => some (.jarr [], rest)
            | _ => (parseArrElems fuel cs).map (fun p => (.jarr p.1, p.2))
          else if c = '\x7b' then
            match jsonSkipWs cs with
            | '\x7d' :: rest => some (.jobj [], rest)
            | _ => (parseObjMembers fuel cs).map (fun p => (.jobj p.1, p.2))
          else if c = '-' then do
            let (n, rest) ← parseDigits cs
            match rest with
            | '.' :: _ => none
            | 'e' :: _ => none
            | 'E' :: _ => none
            | _ => some (.jint (-(n : Int)), rest)
          else if isDigit c then do
            let (n, rest) ← parseDigits (c :: cs)
            match rest with
            | '.' :: _ => none
            | 'e' :: _ => none
            | 'E' :: _ => none
            | _ => some (.jint (n : Int), rest)
          else if strStarts (str "true") (c :: cs) then
            some (.jbool true, cs.drop 3)
          else if strStarts (str "false") (c :: cs) then
            some (.jbool false, cs.drop 4)
          else if strStarts (str "null") (c :: cs) then
            some (.jnull, cs.drop 3)
          else none

/-- Parse the comma-separated elements of a non-empty array (after `[`). -/
def parseArrElems : Nat → Str → Option (List Json × Str)
  | 0, _ => none
  | fuel + 1, s => do
      let (v, rest) ← parseVal fuel s
      match jsonSkipWs rest with
      | ',' :: rest2 => do
          let (vs, rest3) ← parseArrElems fuel rest2
          some (v :: vs, rest3)
      | ']' :: rest2 => some ([v], rest2)
      | _ => none

/-- Parse the comma-separated members of a non-empty object (after the
opening brace). -/
def parseObjMembers : Nat → Str → Option (List (Str × Json) × Str)
  | 0, _ => none
  | fuel + 1, s =>
      match jsonSkipWs s with
      | '"' :: cs => do
          let (k, rest) ← parseStrBody cs
          match jsonSkipWs rest with
          | ':' :: rest2 => do
              let (v, rest3) ← parseVal fuel rest2
              match jsonSkipWs rest3 with
              | ',' :: rest4 => do
                  let (kvs, rest5) ← parseObjMembers fuel rest4
                  some ((k, v) :: kvs, rest5)
              | '\x7d' :: rest4 => some ([(k, v)], rest4)
              | _ => none
          | _ => none
      | _ => none

end

/-- Python `json.loads` on the model: parse one value and require only
whitespace after it; `none` models a raised `JSONDecodeError`. -/
def pyLoads (s : Str) : Option Json :=
  match parseVal (s.length + 1) s with
  | some (v, rest) => if jsonSkipWs rest = [] then some v else none
  | none => none

/-! ## Display formatting (`_format_*_for_display`)

Statement-by-statement embedding of the Transcript Synthesizer's rendering
helpers in `analysis_db_service.py`.  Functions that can raise a Python
exception are valued in `Except Unit`. -/

/-- `d.get(k)` restricted to the entry list of a dict (returns `none` for a
missing key, like Python's default `None`). -/
def jobjGet (kvs : List (Str × Json)) (k : Str) : Option Json :=
  (kvs.find? (fun kv => kv.1 == k)).map (·.2)

/-- The `tool_name != 'unknown'` guard: a non-string name is unequal to the
string `'unknown'` in Python. -/
def nameGate (name : Json) : Bool :=
  match name with
  | .jstr s => !(s == str "unknown")
  | _ => true

/-- `if isinstance(tool_args, str): tool_args = json.loads(tool_args)` with
the `JSONDecodeError` fallback `{'raw_args': tool_args}`. -/
def parseArgsIfStr (args : Json) : Json :=
  match args with
  | .jstr s =>
      match pyLoads s with
      | some v => v
      | none => .jobj [(str "raw_args", .jstr s)]
  | _ => args

/-- One `tool_calls` entry of the OpenAI branch of
`_format_assistant_message_for_display`. -/
def openaiTcStep (acc : List (Json × Json)) (tc : Json) :
    Except Unit (List (Json × Json)) :=
  match tc with
  | .jobj kvs =>
      match jobjGet kvs (str "function") with
      | some fn => do
          let name ← pyDictGet fn (str "name") (.jstr (str "unknown"))
          let args0 ← pyDictGet fn (str "arguments") (.jobj [])
          let args := parseArgsIfStr args0
          pure (if nameGate name then acc ++ [(name, args)] else acc)
      | none => pure acc
  | _ => pure acc

/-- One `tool_calls` entry of the Ollama branches (both the top-level list
and the legacy embedded-`message` list use this same body). -/
def ollamaTcStep (acc : List (Json × Json)) (tc : Json) :
    Except Unit (List (Json × Json)) :=
  match tc with
  | .jobj kvs => do
      let p ←
        match jobjGet kvs (str "function") with
        | some fn => do
            let n ← pyDictGet fn (str "name") (.jstr (str "unknown"))
            let a ← pyDictGet fn (str "arguments") (.jobj [])
            pure (n, a)
        | none =>
            match jobjGet kvs (str "name") with
            | some _ =>
                pure ((jobjGet kvs (str "name")).getD (.jstr (str "unknown")),
                      (jobjGet kvs (str "arguments")).getD
                        ((jobjGet kvs (str "parameters")).getD (.jobj [])))
            | none => pure (Json.jstr (str "unknown"), Json.jobj [])
      let args := parseArgsIfStr p.2
      pure (if nameGate p.1 then acc ++ [(p.1, args)] else acc)
  | _ => pure acc

/-- One content block of the Anthropic branch (pure: every access is guarded
by `isinstance(block, dict)`). -/
def anthropicBlockStep (acc : Bool × List (Json × Json)) (block : Json) :
    Bool × List (Json × Json) :=
  match block with
  | .jobj kvs =>
      if (match jobjGet kvs (str "type") with
          | some (.jstr s) => s == str "tool_use"
          | _ => false) then
        let name := (jobjGet kvs (str "name")).getD (.jstr (str "unknown"))
        let input := (jobjGet kvs (str "input")).getD (.jobj [])
        (true, if nameGate name then acc.2 ++ [(name, input)] else acc.2)
      else acc
  | _ => acc

/-- The tool-call detection of `_format_assistant_message_for_display`
(lines 911–997): per-provider extraction of `has_tool_calls` and the
collected `{name, args}` details from the native payload. -/
def extractToolDetails (nd : Json) (provider : Str) :
    Except Unit (Bool × List (Json × Json)) := do
  if provider == str "anthropic" then do
    let mem ← pyInStr (str "content") nd
    if mem then do
      let content ← pyIndex nd (str "content")
      let blocks ← pyIter content
      pure (blocks.foldl anthropicBlockStep (false, []))
    else pure (false, [])
  else if provider == str "openai" then do
    let mem ← pyInStr (str "tool_calls") nd
    if mem then do
      let tcsv ← pyIndex nd (str "tool_calls")
      if pyTruthy tcsv then do
        let tcs ← pyIter tcsv
        let details ← tcs.foldlM openaiTcStep []
        pure (true, details)
      else pure (false, [])
    else pure (false, [])
  else if provider == str "ollama" then do
    let mem ← pyInStr (str "tool_calls") nd
    let top ← if mem then do
        let tcsv ← pyIndex nd (str "tool_calls")
        pure (if pyTruthy tcsv then some tcsv else none)
      else pure none
    match top with
    | some tcsv => do
        let tcs ← pyIter tcsv
        let details ← tcs.foldlM ollamaTcStep []
        pure (true, details)
    | none => do
        let mem2 ← pyInStr (str "message") nd
        if mem2 then do
          let md ← pyIndex nd (str "message")
          if jsonIsDict md then do
            let mem3 ← pyInStr (str "tool_calls") md
            if mem3 then do
              let tcsv ← pyIndex md (str "tool_calls")
              if pyTruthy tcsv then do
                let tcs ← pyIter tcsv
                let details ← tcs.foldlM ollamaTcStep []
                pure (true, details)
              else pure (false, [])
            else pure (false, [])
          else pure (false, [])
        else pure (false, [])
  else pure (false, [])

/-- `while clean_content.startswith('\n'): clean_content = clean_content[1:]`. -/
def dropLeadingNewlines (s : Str) : Str := s.dropWhile (· = '\n')

/-- Lines 999–1008: strip a leading `[Tools: …]` indicator from the cleaned
assistant content. -/
def cleanAssistantContent (ct : Str) : Str :=
  let clean := pyStrip ct
  if strStarts (str "[Tools:") clean && clean.contains ']' then
    match charIdx ']' clean with
    | some i => dropLeadingNewlines (pyStrip (clean.drop (i + 1)))
    | none => clean
  else clean

/-- `_format_args_compact`'s loop body for one `key, value` pair. -/
def formatArgPair (kv : Str × Json) : Str :=
  let key := kv.1
  match kv.2 with
  | .jstr s =>
      if s.length > 30 then key ++ str "=\"" ++ s.take 30 ++ str "...\""
      else key ++ str "=\"" ++ s ++ ['"']
  | .jint n => key ++ ['='] ++ intRepr n
  | .jbool b => key ++ ['='] ++ (if b then str "True" else str "False")
  | .jarr l => key ++ str "=[" ++ natRepr l.length ++ str " items]"
  | .jobj kvs => key ++ str "=\x7b" ++ natRepr kvs.length ++ str " keys\x7d"
  | .jnull => key ++ ['='] ++ str "None"

/-- `_format_args_compact` (lines 1052–1076): raises (`AttributeError` on
`.items()`) when a truthy non-dict reaches it. -/
def formatArgsCompact (args : Json) : Except Unit Str :=
  if !pyTruthy args then .ok []
  else
    match args with
    | .jobj kvs => .ok (joinSep (str ", ") (kvs.map formatArgPair))
    | _ => .error ()

/-- The numbered lines of the multiple-tool-call rendering. -/
def formatToolLines : List (Json × Json) → Nat → Except Unit (List Str)
  | [], _ => .ok []
  | t :: ts, i => do
      let argsStr ← if pyTruthy t.2 then formatArgsCompact t.2 else pure []
      let line :=
        if !argsStr.isEmpty then
          str "  " ++ natRepr i ++ str ". " ++ pyStrOfJson t.1 ++ ['('] ++ argsStr ++ str ")"
        else
          str "  " ++ natRepr i ++ str ". " ++ pyStrOfJson t.1
      let rest ← formatToolLines ts (i + 1)
      pure (line :: rest)

/-- `_format_tool_calls_with_params` (lines 1020–1050). -/
def formatToolCallsWithParams (details : List (Json × Json)) : Except Unit Str :=
  match details with
  | [] => .ok []
  | [t] =>
      if !pyTruthy t.2 then .ok (str "[Tool: " ++ pyStrOfJson t.1 ++ [']'])
      else do
        let argsStr ← formatArgsCompact t.2
        .ok (str "[Tool: " ++ pyStrOfJson t.1 ++ ['('] ++ argsStr ++ str ")]")
  | _ :: _ :: _ => do
      let lines ← formatToolLines details 1
      .ok (joinSep ['\n'] (str "[Tools called:]" :: lines))

/-- `_format_assistant_message_for_display` (lines 909–1018). -/
def formatAssistantMessageForDisplay (ct : Str) (nd : Json) (provider : Str) :
    Except Unit Str := do
  let ex ← extractToolDetails nd provider
  let clean := cleanAssistantContent ct
  if ex.1 && !ex.2.isEmpty then do
    let txt ← formatToolCallsWithParams ex.2
    if !clean.isEmpty then pure (txt ++ str "\n\n" ++ clean)
    else pure txt
  else pure clean

/-- `_clean_user_message_for_display` (lines 890–907). -/
def cleanUserMessageForDisplay (ct : Str) : Str :=
  if strContains (str "Available MCP Tools") ct then
    pyStrip (beforeFirst (str "Available MCP Tools") ct)
  else if strContains (str "**RAG Context**") ct then
    pyStrip (beforeFirst (str "**RAG Context**") ct)
  else if strContains (str "Use the available tool calls as needed.") ct then
    pyStrip (replaceAll '\n' (str "\nUse the available tool calls as needed.") [] ct)
  else pyStrip ct

/-- Split on a separator character (Python `s.split('\n')`). -/
def splitOnChar (c : Char) : Str → List Str
  | [] => [[]]
  | d :: ds =>
      if d = c then [] :: splitOnChar c ds
      else
        match splitOnChar c ds with
        | [] => [[d]]
        | x :: xs => (d :: x) :: xs

/-- Helper for `pySplitWs`: collect whitespace-separated words, carrying the
current (reversed) word. -/
def wordsAux : Str → Str → List Str
  | [], acc => if acc.isEmpty then [] else [acc.reverse]
  | c :: cs, acc =>
      if isWs c then
        if acc.isEmpty then wordsAux cs [] else acc.reverse :: wordsAux cs []
      else wordsAux cs (c :: acc)

/-- Python `s.split()` (split on whitespace runs, no empty parts). -/
def pySplitWs (s : Str) : List Str := wordsAux s []

/-- The `Tool:`-line fallback of `_format_tool_message_for_display`
(lines 1090–1099). -/
def extractToolNameFromContent (clean : Str) : Str :=
  go (splitOnChar '\n' clean)
where
  go : List Str → Str
  | [] => str "Tool"
  | line :: rest =>
      let ls := pyStrip line
      if strStarts (str "Tool:") ls || strStarts (str "**Tool:**") ls then
        match pySplitWs line with
        | _ :: p1 :: _ => p1.filter (fun c => !(c = '`' || c = '*'))
        | _ => str "Tool"
      else go rest

/-- `_format_tool_message_for_display` (lines 1078–1107). -/
def formatToolMessageForDisplay (ct : Str) (nd : Json) : Except Unit Str := do
  if (pyStrip ct).isEmpty then pure []
  else do
    let clean := pyStrip ct
    let nameFromNd ←
      if pyTruthy nd then do
        let mem ← pyInStr (str "name") nd
        if mem then do
          let v ← pyIndex nd (str "name")
          pure (some v)
        else pure none
      else pure (none : Option Json)
    let toolName : Str :=
      match nameFromNd with
      | some v => pyStrOfJson v
      | none =>
          if strContains (str "Tool:") clean then extractToolNameFromContent clean
          else str "Tool"
    if clean.length > 200 then
      let preview := clean.take 200 ++ str "...\n\n[Tool result truncated for display]"
      pure (str "**" ++ toolName ++ str " Result:**\n```\n" ++ preview ++ str "\n```")
    else
      pure (str "**" ++ toolName ++ str " Result:**\n```\n" ++ clean ++ str "\n```")

/-- The body of `_format_message_for_display` before its `except` handler:
role dispatch to the per-role renderers. -/
def innerFormatMessage (role ct _mt provider : Str) (nd : Json) : Except Unit Str :=
  if role == str "user" then .ok (cleanUserMessageForDisplay ct)
  else if role == str "assistant" then formatAssistantMessageForDisplay ct nd provider
  else if role == str "tool" then formatToolMessageForDisplay ct nd
  else .ok ct

/-- `_format_message_for_display` (lines 867–888): any exception raised by
the per-role renderer is caught and the raw `content_text` returned. -/
def formatMessageForDisplay (role ct mt provider : Str) (nd : Json) : Str :=
  match innerFormatMessage role ct mt provider nd with
  | .ok s => s
  | .error _ => ct

/-! ## Store engine: chat history tables

`BNChatHistory` (legacy) and `BNChatMessages` (native) as lists of rows in
insertion order.  All operations run under the service's re-entrant lock, so
a sequence of operations is the faithful model of any concurrent execution.
JSON documents (`metadata`, `native_message_data`) are stored through
`json.dumps`/read back through `json.loads`; since that pair is the identity
on JSON-representable values the columns are modelled as holding the `Json`
value verbatim. -/

/-- A `BNChatHistory` row. -/
structure ChatRow where
  binary_hash : Str
  chat_id : Str
  message_order : Int
  role : Str
  content : Str
  metadata : Option Json

/-- The `message_order` column of the rows of one `(binary_hash, chat_id)`
chat, in table order. -/
def chatOrders (st : List ChatRow) (h c : Str) : List Int :=
  (st.filter (fun r => r.binary_hash == h && r.chat_id == c)).map (·.message_order)

/-- `SELECT COALESCE(MAX(message_order), -1) + 1` over a list of orders. -/
def nextOrder (os : List Int) : Int := os.foldl max (-1) + 1

/-- `save_chat_message` (lines 446–478): compute the next order for the chat
and insert the row. -/
def saveChatMessage (st : List ChatRow) (h c role content : Str)
    (meta : Option Json) : List ChatRow :=
  st ++ [⟨h, c, nextOrder (chatOrders st h c), role, content, meta⟩]

/-- One `save_chat_message` call (its arguments). -/
structure ChatSaveOp where
  binary_hash : Str
  chat_id : Str
  role : Str
  content : Str
  metadata : Option Json

/-- Apply a sequence of `save_chat_message` calls. -/
def applyChatOps (st : List ChatRow) (ops : List ChatSaveOp) : List ChatRow :=
  ops.foldl (fun s o => saveChatMessage s o.binary_hash o.chat_id o.role o.content o.metadata) st

/-- How many of the calls target the chat `(h, c)`. -/
def countChatOps (ops : List ChatSaveOp) (h c : Str) : Nat :=
  ops.countP (fun o => o.binary_hash == h && o.chat_id == c)

/-- The closed provider-tag set of §3 (the `ProviderType` enum is validated
before any write; only successful saves are modelled). -/
inductive ProviderType where
  | anthropic | openai | ollama | lmstudio
deriving DecidableEq

/-- The string tag of a provider (the `provider_type` column). -/
def ProviderType.tag : ProviderType → Str
  | .anthropic => str "anthropic"
  | .openai => str "openai"
  | .ollama => str "ollama"
  | .lmstudio => str "lmstudio"

/-- A `BNChatMessages` row. -/
structure NativeRow where
  binary_hash : Str
  chat_id : Str
  message_order : Int
  provider_type : Str
  native_message_data : Json
  role : Str
  content_text : Str
  message_type : Str
  parent_message_id : Option Int
  conversation_thread_id : Option Str

/-- The rows of one `(binary_hash, chat_id)` chat, in table order. -/
def nativeChatRows (st : List NativeRow) (h c : Str) : List NativeRow :=
  st.filter (fun r => r.binary_hash == h && r.chat_id == c)

/-- The `message_order` column of one chat, in table order. -/
def nativeOrders (st : List NativeRow) (h c : Str) : List Int :=
  (nativeChatRows st h c).map (·.message_order)

/-- `save_native_message` (lines 606–661): validate the provider tag, derive
`(role, content_text, message_type)` from the payload, compute the next
order for the chat, insert.  The derivation is performed by
`message_format_service.extract_display_info`, which lives outside the
sources under verification; the derived fields are therefore taken as
arbitrary inputs, which also expresses the spec's "regardless of how
`content_text`/`message_type` were derived". -/
def saveNativeMessage (st : List NativeRow) (h c : Str) (payload : Json)
    (provider : ProviderType) (role content_text message_type : Str)
    (parent : Option Int) (thread : Option Str) : List NativeRow :=
  st ++ [⟨h, c, nextOrder (nativeOrders st h c), provider.tag, payload,
          role, content_text, message_type, parent, thread⟩]

/-- One successful `save_native_message` call (its arguments). -/
structure NativeSaveOp where
  binary_hash : Str
  chat_id : Str
  payload : Json
  provider : ProviderType
  role : Str
  content_text : Str
  message_type : Str
  parent : Option Int
  thread : Option Str

/-- Apply a sequence of `save_native_message` calls. -/
def applyNativeOps (st : List NativeRow) (ops : List NativeSaveOp) : List NativeRow :=
  ops.foldl (fun s o => saveNativeMessage s o.binary_hash o.chat_id o.payload
    o.provider o.role o.content_text o.message_type o.parent o.thread) st

/-- How many of the calls target the chat `(h, c)`. -/
def countNativeOps (ops : List NativeSaveOp) (h c : Str) : Nat :=
  ops.countP (fun o => o.binary_hash == h && o.chat_id == c)

/-- The row a save call produces when it is assigned order `ord`. -/
def mkNativeRow (o : NativeSaveOp) (ord : Int) : NativeRow :=
  ⟨o.binary_hash, o.chat_id, ord, o.provider.tag, o.payload,
   o.role, o.content_text, o.message_type, o.parent, o.thread⟩

/-- The rows a sequence of saves contributes to chat `(h, c)` when the
chat's next order number starts at `k` (specification device for the
round-trip and order-density proofs). -/
def buildChat (h c : Str) : List NativeSaveOp → Nat → List NativeRow
  | [], _ => []
  | o :: rest, k =>
      if o.binary_hash == h && o.chat_id == c then
        mkNativeRow o (k : Int) :: buildChat h c rest (k + 1)
      else buildChat h c rest k

/-- Insert a row into a list sorted by `message_order` (model of
`ORDER BY message_order ASC`; orders within a chat are unique by the table's
UNIQUE constraint, so stability questions do not arise). -/
def insertByOrder (r : NativeRow) : List NativeRow → List NativeRow
  | [] => [r]
  | x :: xs =>
      if r.message_order ≤ x.message_order then r :: x :: xs
      else x :: insertByOrder r xs

/-- Sort rows by `message_order` (model of `ORDER BY message_order ASC`). -/
def sortByOrder (l : List NativeRow) : List NativeRow :=
  l.foldr insertByOrder []

/-- `get_native_messages_for_provider` (lines 713–737): the raw native
payloads of one chat for one provider tag, ordered by `message_order`. -/
def getNativeMessagesForProvider (st : List NativeRow) (h c p : Str) : List Json :=
  (sortByOrder (st.filter (fun r =>
    r.binary_hash == h && r.chat_id == c && r.provider_type == p))).map
    (·.native_message_data)

/-- `get_native_messages` (lines 663–711): full rows of one chat, optionally
filtered by provider tag, ordered by `message_order`. -/
def getNativeMessages (st : List NativeRow) (h c : Str) (p : Option Str) :
    List NativeRow :=
  match p with
  | some pt => sortByOrder (st.filter (fun r =>
      r.binary_hash == h && r.chat_id == c && r.provider_type == pt))
  | none => sortByOrder (nativeChatRows st h c)

/-! ## Transcript synthesizer: grouping and deduplication -/

/-- A raw message as assembled by `get_display_messages` before grouping. -/
structure DMsg where
  id : Nat
  message_order : Int
  role : Str
  content_text : Str
  message_type : Str
  provider_type : Str
  native_data : Json

/-- `_choose_better_assistant_message` (lines 849–865): prefer strictly
longer stripped content; on a tie, prefer the higher `message_order`. -/
def chooseBetterAssistantMessage (m1 m2 : DMsg) : DMsg :=
  let c1 := pyStrip m1.content_text
  let c2 := pyStrip m2.content_text
  if c2.length > c1.length then m2
  else if c1.length > c2.length then m1
  else if m2.message_order > m1.message_order then m2
  else m1

/-- Fuelled body of `_group_and_deduplicate_messages`; the fuel (initially
the list length, which always suffices because the consumed run is part of
the input) makes the recursion structural. -/
def groupDedupF : Nat → List DMsg → List DMsg
  | _, [] => []
  | 0, l => l
  | fuel + 1, m :: rest =>
      if m.role == str "user" then m :: groupDedupF fuel rest
      else if m.role == str "assistant" then
        let run := rest.takeWhile (fun r => r.role == str "assistant")
        let rest2 := rest.dropWhile (fun r => r.role == str "assistant")
        run.foldl chooseBetterAssistantMessage m :: groupDedupF fuel rest2
      else m :: groupDedupF fuel rest

/-- `_group_and_deduplicate_messages` (lines 804–847): user and other
non-assistant rows pass through; each maximal run of consecutive assistant
rows is collapsed to the left fold of `_choose_better_assistant_message`
over the run. -/
def groupAndDeduplicateMessages (l : List DMsg) : List DMsg :=
  groupDedupF l.length l

/-! ## Store engine: context cache (`BNContext`)

`save_context_cache` stores `expires_at` as `datetime.now().isoformat()`
(separator `'T'`), while the reads compare that TEXT value against SQLite's
`CURRENT_TIMESTAMP` (separator `' '`) under the BINARY collation, i.e. a
byte-wise comparison.  Both renderings and the byte-wise order are embedded
so the comparison the code actually performs can be related to chronological
order. -/

/-- A calendar timestamp (no fractional seconds; `datetime.now()` may append
microseconds after the seconds field, which only adds characters after the
position at which the comparisons below are already decided). -/
structure DateTime where
  year : Nat
  month : Nat
  day : Nat
  hour : Nat
  minute : Nat
  second : Nat
deriving DecidableEq

/-- Chronological (calendar) order on timestamps. -/
def chronoLt (a b : DateTime) : Bool :=
  if a.year ≠ b.year then a.year < b.year
  else if a.month ≠ b.month then a.month < b.month
  else if a.day ≠ b.day then a.day < b.day
  else if a.hour ≠ b.hour then a.hour < b.hour
  else if a.minute ≠ b.minute then a.minute < b.minute
  else a.second < b.second

/-- Zero-padded two-digit decimal rendering. -/
def pad2 (n : Nat) : Str := if n < 10 then '0' :: natRepr n else natRepr n

/-- `datetime.isoformat()`: `YYYY-MM-DDTHH:MM:SS` — note the `'T'` date/time
separator. -/
def isoFormat (d : DateTime) : Str :=
  natRepr d.year ++ ['-'] ++ pad2 d.month ++ ['-'] ++ pad2 d.day ++ ['T'] ++
    pad2 d.hour ++ [':'] ++ pad2 d.minute ++ [':'] ++ pad2 d.second

/-- SQLite `CURRENT_TIMESTAMP`: `YYYY-MM-DD HH:MM:SS` — a space separator. -/
def sqlFormat (d : DateTime) : Str :=
  natRepr d.year ++ ['-'] ++ pad2 d.month ++ ['-'] ++ pad2 d.day ++ [' '] ++
    pad2 d.hour ++ [':'] ++ pad2 d.minute ++ [':'] ++ pad2 d.second

/-- SQLite's BINARY collation on TEXT values: byte-wise (for the ASCII
strings involved, code-point-wise) lexicographic order. -/
def strLtB : Str → Str → Bool
  | [], [] => false
  | [], _ :: _ => true
  | _ :: _, [] => false
  | a :: as, b :: bs =>
      if a.toNat < b.toNat then true
      else if b.toNat < a.toNat then false
      else strLtB as bs

/-- `x > y` on TEXT values. -/
def strGtB (a b : Str) : Bool := strLtB b a

/-- `x <= y` on TEXT values. -/
def strLeB (a b : Str) : Bool := !strLtB b a

/-- A `BNContext` row (`context_data` held verbatim as its JSON value, see
the chat-table note on `json.dumps`/`json.loads`). -/
structure ContextRow where
  binary_hash : Str
  function_start : Int
  context_data : Json
  expires_at : Option Str

/-- The expiry acceptance test of `get_context_cache`'s WHERE clause:
`expires_at IS NULL OR expires_at > CURRENT_TIMESTAMP`. -/
def contextRowLive (r : ContextRow) (now : Str) : Bool :=
  match r.expires_at with
  | none => true
  | some e => strGtB e now

/-- The deletion test of `cleanup_expired_context`:
`expires_at IS NOT NULL AND expires_at <= CURRENT_TIMESTAMP`. -/
def contextRowExpired (r : ContextRow) (now : Str) : Bool :=
  match r.expires_at with
  | none => false
  | some e => strLeB e now

/-- `get_context_cache` (lines 396–417): fetch the cached blob of
`(binary_hash, function_start)` if the row passes the expiry filter. -/
def getContextCache (st : List ContextRow) (h : Str) (f : Int) (now : Str) :
    Option Json :=
  (st.find? (fun r =>
    r.binary_hash == h && r.function_start == f && contextRowLive r now)).map
    (·.context_data)

/-- `cleanup_expired_context` (lines 419–442): delete every row whose
`expires_at` is non-null and `<= CURRENT_TIMESTAMP`; return the remaining
table and the deleted count (`cursor.rowcount`). -/
def cleanupExpiredContext (st : List ContextRow) (now : Str) :
    List ContextRow × Nat :=
  (st.filter (fun r => !contextRowExpired r now),
   st.countP (fun r => contextRowExpired r now))

/-! ## Store engine: system prompts (`SystemPrompts`)

The table has no uniqueness constraint on `version`; rows are listed in
insertion (= `created_at`) order. -/

/-- A `SystemPrompts` row. -/
structure PromptRow where
  prompt : Str
  version : Str
  is_active : Bool

/-- `save_system_prompt` (lines 1246–1267): plain INSERT, `is_active`
defaults to 0. -/
def saveSystemPrompt (st : List PromptRow) (p v : Str) : List PromptRow :=
  st ++ [⟨p, v, false⟩]

/-- `set_active_system_prompt` (lines 1290–1318): deactivate every row, then
activate every row whose `version` matches; report `cursor.rowcount > 0` of
the second UPDATE. -/
def setActiveSystemPrompt (st : List PromptRow) (v : Str) :
    List PromptRow × Bool :=
  let deactivated := st.map (fun r => { r with is_active := false })
  let activated := deactivated.map (fun r =>
    if r.version == v then { r with is_active := true } else r)
  (activated, st.any (fun r => r.version == v))

/-- Number of active rows. -/
def activeCount (st : List PromptRow) : Nat := st.countP (·.is_active)

/-- Number of rows carrying version `v`. -/
def versionCount (st : List PromptRow) (v : Str) : Nat :=
  st.countP (fun r => r.version == v)

/-- The store operations touching `SystemPrompts` (for reachability). -/
inductive PromptOp where
  | save (p v : Str)
  | setActive (v : Str)

/-- Apply one prompt operation (the reported boolean is discarded). -/
def applyPromptOp (st : List PromptRow) : PromptOp → List PromptRow
  | .save p v => saveSystemPrompt st p v
  | .setActive v => (setActiveSystemPrompt st v).1

/-- Apply a sequence of prompt operations starting from a state. -/
def applyPromptOps (st : List PromptRow) (ops : List PromptOp) : List PromptRow :=
  ops.foldl applyPromptOp st

/-! ## Settings service: LLM providers (`settings_service.py`) -/

/-- An `llm_providers` row (`name` is UNIQUE). -/
structure LLMProviderRow where
  name : Str
  model : Str
  url : Str
  max_tokens : Int
  api_key : Str
  disable_tls : Bool
  provider_type : Str
  is_active : Bool

/-- The settings database: the `llm_providers` table and the key-value
`settings` table (values as their serialized strings). -/
structure SettingsState where
  providers : List LLMProviderRow
  settings : List (Str × Str)

/-- `INSERT OR REPLACE INTO settings`: the key is the primary key, so the
old entry (if any) is replaced. -/
def upsertSetting (ss : List (Str × Str)) (k v : Str) : List (Str × Str) :=
  ss.filter (fun kv => !(kv.1 == k)) ++ [(k, v)]

/-- Lookup in the `settings` table. -/
def getSettingValue (ss : List (Str × Str)) (k : Str) : Option Str :=
  (ss.find? (fun kv => kv.1 == k)).map (·.2)

/-- `add_llm_provider` (lines 295–317): the UNIQUE constraint on `name`
raises an `IntegrityError` (re-raised as `ValueError`) on a duplicate. -/
def addLLMProvider (st : SettingsState) (name model url : Str)
    (max_tokens : Int) (api_key : Str) (disable_tls : Bool)
    (provider_type : Str) : Except Unit SettingsState :=
  if st.providers.any (fun p => p.name == name) then .error ()
  else .ok { st with providers :=
    st.providers ++ [⟨name, model, url, max_tokens, api_key, disable_tls,
                      provider_type, false⟩] }

/-- `set_active_llm_provider` (lines 399–426): deactivate every provider,
activate the rows matching `name`, record the name in the settings table,
and return `True` unconditionally. -/
def setActiveLLMProvider (st : SettingsState) (name : Str) :
    SettingsState × Bool :=
  let deactivated := st.providers.map (fun p => { p with is_active := false })
  let activated := deactivated.map (fun p =>
    if p.name == name then { p with is_active := true } else p)
  ({ providers := activated,
     settings := upsertSetting st.settings (str "active_llm_provider") name },
   true)

/-- Number of active providers. -/
def activeProviderCount (st : SettingsState) : Nat :=
  st.providers.countP (·.is_active)

/-! ## Concrete fixtures used by the theorems below -/

/-- An OpenAI-shaped assistant payload with one tool call `f(a=1)`. -/
def fPayload : Json :=
  .jobj [(str "tool_calls", .jarr [
    .jobj [(str "function", .jobj [(str "name", .jstr (str "f")),
                                   (str "arguments", .jobj [(str "a", .jint 1)])])]])]

/-- The OpenAI-shaped payload of the spec's scenario: one `tool_calls` entry
naming `get_disassembly` with the JSON-string arguments blob. -/
def disasPayload : Json :=
  .jobj [(str "tool_calls", .jarr [
    .jobj [(str "function", .jobj [(str "name", .jstr (str "get_disassembly")),
                                   (str "arguments", .jstr (str "\x7b\"addr\":4096\x7d"))])]])]

/-- A settings state with a single provider `A`, currently active. -/
def oneProviderState : SettingsState :=
  ⟨[⟨str "A", str "m", str "u", 4096, [], false, str "openai", true⟩], []⟩

/-- An assistant row with empty (tool-only) content. -/
def emptyAssistantRow : DMsg :=
  ⟨1, 0, str "assistant", [], str "text", str "openai", .jobj []⟩

/-- An assistant row with content `Result: done` and the next order. -/
def resultAssistantRow : DMsg :=
  ⟨2, 1, str "assistant", str "Result: done", str "text", str "openai", .jobj []⟩

/-- A user row (fixture for pass-through checks). -/
def userRow : DMsg :=
  ⟨3, 2, str "user", str "hi", str "text", str "openai", .jobj []⟩

/-- Two native saves into the chat `(h, c)`: an OpenAI payload followed by
an Anthropic payload. -/
def twoNativeSaves : List NativeSaveOp :=
  [⟨str "h", str "c", .jstr (str "p1"), .openai, str "assistant", [],
    str "text", none, none⟩,
   ⟨str "h", str "c", .jobj [(str "k", .jint 1)], .anthropic, str "user",
    [], str "text", none, none⟩]

/-- A context-cache expiry earlier on the same calendar day as `ctxNow`. -/
def ctxExpiry : DateTime := ⟨2026, 10, 12, 8, 0, 0⟩

/-- The observation time, one hour after `ctxExpiry`. -/
def ctxNow : DateTime := ⟨2026, 10, 12, 9, 0, 0⟩

/-- A `BNContext` row whose `expires_at` is `ctxExpiry` rendered by
`datetime.isoformat()` (as `save_context_cache` stores it). -/
def ctxRow : ContextRow :=
  ⟨str "h", 0, .jstr (str "ctx"), some (isoFormat ctxExpiry)⟩

/-! ## General lemmas about the string model -/

theorem strStarts_append_self (p r : Str) : strStarts p (p ++ r) = true := by
  induction p with
  | nil => rfl
  | cons c cs ih => simp [strStarts, ih]

theorem strStarts_self (p : Str) : strStarts p p = true := by
  have h := strStarts_append_self p []
  simpa using h

theorem charIdx_append_of_not_mem {c : Char} {xs : Str} (ys : Str) (h : c ∉ xs) :
    charIdx c (xs ++ c :: ys) = some xs.length := by
  induction xs with
  | nil => simp [charIdx]
  | cons d ds ih =>
      have hd : ¬ d = c := fun hdc => h (hdc ▸ List.mem_cons_self d ds)
      have hds : c ∉ ds := fun hm => h (List.mem_cons_of_mem d hm)
      simp [charIdx, hd, ih hds]

theorem dropWhile_dropWhile_of_imp {α : Type} {p q : α → Bool}
    (h : ∀ a, q a = true → p a = true) (l : List α) :
    (l.dropWhile p).dropWhile q = l.dropWhile p := by
  induction l with
  | nil => rfl
  | cons a as ih =>
      by_cases hp : p a = true
      · simp [List.dropWhile_cons, hp, ih]
      · have hq : ¬ q a = true := fun hqa => hp (h a hqa)
        simp [List.dropWhile_cons, hp, hq]

theorem stripR_idem (s : Str) : stripR (stripR s) = stripR s := by
  unfold stripR
  rw [List.reverse_reverse]
  rw [dropWhile_dropWhile_of_imp (fun a ha => ha)]

theorem strContains_append_right (pat xs : Str) {ys : Str}
    (h : strContains pat ys = true) : strContains pat (xs ++ ys) = true := by
  induction xs with
  | nil => simpa using h
  | cons c cs ih => simp [strContains, ih]

/-! ## C10 -/

/-- C10: per-message display formatting is total — for every role,
content_text, message_type, provider_type and native payload,
`_format_message_for_display` returns a string: either the per-role
renderer succeeded and its result is returned, or the raised error is
caught and the raw `content_text` is returned unchanged.  The second and
third conjuncts exhibit a payload (`tool_calls` bound to the integer `5`)
on which the assistant renderer does raise and the raw content is
returned. -/
theorem c10_display_formatting_total :
    (∀ (role ct mt provider : Str) (nd : Json),
      formatMessageForDisplay role ct mt provider nd = ct ∨
        innerFormatMessage role ct mt provider nd =
          .ok (formatMessageForDisplay role ct mt provider nd)) ∧
    innerFormatMessage (str "assistant") (str "hello") (str "text")
        (str "openai") (.jobj [(str "tool_calls", .jint 5)]) = .error () ∧
    formatMessageForDisplay (str "assistant") (str "hello") (str "text")
        (str "openai") (.jobj [(str "tool_calls", .jint 5)]) = str "hello" := by
  refine ⟨?_, rfl, rfl⟩
  intro role ct mt provider nd
  cases h : innerFormatMessage role ct mt provider nd with
  | ok s => right; simp [formatMessageForDisplay, h]
  | error e => left; simp [formatMessageForDisplay, h]

/-! ## C8 -/

/-- C8: the OpenAI-shaped payload with
`tool_calls = [{function: {name: "get_disassembly", arguments:
"{\"addr\":4096}"}}]` and no free text renders exactly
`[Tool: get_disassembly(addr=4096)]`; and `_format_args_compact` renders a
single argument compactly: strings over 30 characters truncated with an
ellipsis and quoted, shorter strings quoted in full, integers and booleans
literally, lists as `[N items]` and dicts as `{N keys}`. -/
theorem c8_openai_tool_call_rendering :
    formatMessageForDisplay (str "assistant") [] (str "tool_call")
        (str "openai") disasPayload = str "[Tool: get_disassembly(addr=4096)]" ∧
    (∀ (k s : Str), 30 < s.length →
      formatArgsCompact (.jobj [(k, .jstr s)]) =
        .ok (k ++ str "=\"" ++ s.take 30 ++ str "...\"")) ∧
    (∀ (k s : Str), s.length ≤ 30 →
      formatArgsCompact (.jobj [(k, .jstr s)]) =
        .ok (k ++ str "=\"" ++ s ++ ['"'])) ∧
    (∀ (k : Str) (n : Int),
      formatArgsCompact (.jobj [(k, .jint n)]) = .ok (k ++ ['='] ++ intRepr n)) ∧
    (∀ (k : Str) (b : Bool),
      formatArgsCompact (.jobj [(k, .jbool b)]) =
        .ok (k ++ ['='] ++ (if b then str "True" else str "False"))) ∧
    (∀ (k : Str) (l : List Json),
      formatArgsCompact (.jobj [(k, .jarr l)]) =
        .ok (k ++ str "=[" ++ natRepr l.length ++ str " items]")) ∧
    (∀ (k : Str) (kvs : List (Str × Json)),
      formatArgsCompact (.jobj [(k, .jobj kvs)]) =
        .ok (k ++ str "=\x7b" ++ natRepr kvs.length ++ str " keys\x7d")) := by
  refine ⟨rfl, ?_, ?_, ?_, ?_, ?_, ?_⟩
  · intro k s h
    have hgt : s.length > 30 := h
    simp [formatArgsCompact, pyTruthy, formatArgPair, joinSep, hgt]
  · intro k s h
    have hle : ¬ s.length > 30 := by omega
    simp [formatArgsCompact, pyTruthy, formatArgPair, joinSep, hle]
  · intro k n
    simp [formatArgsCompact, pyTruthy, formatArgPair, joinSep]
  · intro k b
    simp [formatArgsCompact, pyTruthy, formatArgPair, joinSep]
  · intro k l
    simp [formatArgsCompact, pyTruthy, formatArgPair, joinSep]
  · intro k kvs
    simp [formatArgsCompact, pyTruthy, formatArgPair, joinSep]

/-- Witness for C8 at concrete inputs. -/
theorem c8_openai_tool_call_rendering_witness :
    formatArgsCompact (.jobj [(str "k",
        .jstr (str "0123456789012345678901234567890"))]) =
      .ok (str "k" ++ str "=\"" ++
        (str "0123456789012345678901234567890").take 30 ++ str "...\"") ∧
    formatArgsCompact (.jobj [(str "k", .jstr (str "v"))]) =
      .ok (str "k" ++ str "=\"" ++ str "v" ++ ['"']) :=
  ⟨c8_openai_tool_call_rendering.2.1 (str "k")
      (str "0123456789012345678901234567890") (by decide),
   c8_openai_tool_call_rendering.2.2.1 (str "k") (str "v") (by decide)⟩

/-! ## C9 -/

theorem replaceAllF_copy_then_delete {pre : Str} (t : Str) {fuel : Nat}
    (hf : (pre ++ '\n' :: t).length ≤ fuel) (h : '\n' ∉ pre) :
    replaceAllF '\n' t [] fuel (pre ++ '\n' :: t) = pre := by
  induction pre generalizing fuel with
  | nil =>
      cases fuel with
      | zero => simp at hf
      | succ f =>
          show replaceAllF '\n' t [] (f + 1) ('\n' :: t) = []
          rw [replaceAllF]
          simp [strStarts_self ('\n' :: t), List.drop_length, replaceAllF]
  | cons c cs ih =>
      cases fuel with
      | zero => simp at hf
      | succ f =>
          have hc : ¬ '\n' = c := fun hcc => h (hcc ▸ List.mem_cons_self c cs)
          have hcs : '\n' ∉ cs := fun hm => h (List.mem_cons_of_mem c hm)
          have hf2 : (cs ++ '\n' :: t).length ≤ f := by
            simp only [List.cons_append, List.length_cons] at hf
            omega
          rw [List.cons_append, replaceAllF]
          simp only [strStarts, hc]
          simp [ih hf2 hcs]

theorem replaceAll_copy_then_delete {pre : Str} (t : Str) (h : '\n' ∉ pre) :
    replaceAll '\n' t [] (pre ++ '\n' :: t) = pre :=
  replaceAllF_copy_then_delete t le_rfl h

/-- C9: cleaning a user message truncates at the injected-context markers,
checked tool-enumeration marker first, keeping the trimmed text preceding
the marker; the blank-line-prefixed literal suffix sentence
`Use the available tool calls as needed.` is removed without truncating the
rest; and the spec scenario
`"Analyze this.\n\nAvailable MCP Tools\n...more..."` cleans to exactly
`"Analyze this."`. -/
theorem c9_user_message_cleaning :
    cleanUserMessageForDisplay
        (str "Analyze this.\n\nAvailable MCP Tools\n...more...") =
      str "Analyze this." ∧
    (∀ ct : Str, strContains (str "Available MCP Tools") ct = true →
      cleanUserMessageForDisplay ct =
        pyStrip (beforeFirst (str "Available MCP Tools") ct)) ∧
    (∀ ct : Str, strContains (str "Available MCP Tools") ct = false →
      strContains (str "**RAG Context**") ct = true →
      cleanUserMessageForDisplay ct =
        pyStrip (beforeFirst (str "**RAG Context**") ct)) ∧
    (∀ pre : Str,
      strContains (str "Available MCP Tools")
        (pre ++ str "\n\nUse the available tool calls as needed.") = false →
      strContains (str "**RAG Context**")
        (pre ++ str "\n\nUse the available tool calls as needed.") = false →
      '\n' ∉ pre →
      cleanUserMessageForDisplay
        (pre ++ str "\n\nUse the available tool calls as needed.") =
        pyStrip pre) ∧
    cleanUserMessageForDisplay
        (str "A\n\nUse the available tool calls as needed.\nB") = str "A\nB" := by
  refine ⟨rfl, ?_, ?_, ?_, rfl⟩
  · intro ct h
    simp [cleanUserMessageForDisplay, h]
  · intro ct h1 h2
    simp [cleanUserMessageForDisplay, h1, h2]
  · intro pre h1 h2 h3
    have hsfx : str "\n\nUse the available tool calls as needed." =
        '\n' :: str "\nUse the available tool calls as needed." := rfl
    have hsent : strContains (str "Use the available tool calls as needed.")
        (pre ++ str "\n\nUse the available tool calls as needed.") = true := by
      exact strContains_append_right _ _ (by decide)
    simp only [cleanUserMessageForDisplay, h1, h2, hsent, Bool.false_eq_true,
      if_false, if_true]
    rw [hsfx, replaceAll_copy_then_delete _ h3]

/-- Witness for C9 at concrete inputs. -/
theorem c9_user_message_cleaning_witness :
    cleanUserMessageForDisplay (str "Q1. **RAG Context**\nstuff") =
      pyStrip (beforeFirst (str "**RAG Context**") (str "Q1. **RAG Context**\nstuff")) ∧
    cleanUserMessageForDisplay
        (str "Do X." ++ str "\n\nUse the available tool calls as needed.") =
      pyStrip (str "Do X.") :=
  ⟨c9_user_message_cleaning.2.2.1 (str "Q1. **RAG Context**\nstuff")
      (by decide) (by decide),
   c9_user_message_cleaning.2.2.2.1 (str "Do X.")
      (by decide) (by decide) (by decide)⟩

/-! ## C1: order assignment -/

theorem foldl_max_intRange (k : Nat) :
    List.foldl max (-1 : Int) ((List.range k).map Int.ofNat) = (k : Int) - 1 := by
  induction k with
  | zero => rfl
  | succ n ih =>
      rw [List.range_succ, List.map_append, List.foldl_append, ih]
      simp only [List.map_cons, List.map_nil, List.foldl_cons, List.foldl_nil,
        Int.ofNat_eq_natCast]
      push_cast
      omega

theorem nextOrder_intRange (k : Nat) :
    nextOrder ((List.range k).map Int.ofNat) = (k : Int) := by
  unfold nextOrder
  rw [foldl_max_intRange]
  omega

theorem intRange_succ (k : Nat) :
    (List.range (k + 1)).map Int.ofNat =
      (List.range k).map Int.ofNat ++ [(k : Int)] := by
  rw [List.range_succ, List.map_append]
  rfl

theorem chatOrders_save (st : List ChatRow) (h' c' roleArg contentArg : Str)
    (meta : Option Json) (h c : Str) :
    chatOrders (saveChatMessage st h' c' roleArg contentArg meta) h c =
      if h' = h ∧ c' = c then
        chatOrders st h c ++ [nextOrder (chatOrders st h c)]
      else chatOrders st h c := by
  unfold chatOrders saveChatMessage
  rw [List.filter_append, List.map_append]
  by_cases hh : h' = h
  · by_cases hc : c' = c
    · subst hh; subst hc
      simp
      rfl
    · have : ¬ (h' = h ∧ c' = c) := fun hp => hc hp.2
      simp [hc, this]
  · have : ¬ (h' = h ∧ c' = c) := fun hp => hh hp.1
    simp [hh, this]

theorem chatOrders_applyOps (ops : List ChatSaveOp) :
    ∀ (st : List ChatRow) (h c : Str) (k : Nat),
      chatOrders st h c = (List.range k).map Int.ofNat →
      chatOrders (applyChatOps st ops) h c =
        (List.range (k + countChatOps ops h c)).map Int.ofNat := by
  induction ops with
  | nil =>
      intro st h c k hk
      simpa [applyChatOps, countChatOps] using hk
  | cons o rest ih =>
      intro st h c k hk
      have hstep := chatOrders_save st o.binary_hash o.chat_id o.role o.content
        o.metadata h c
      have happ : applyChatOps st (o :: rest) =
          applyChatOps (saveChatMessage st o.binary_hash o.chat_id o.role
            o.content o.metadata) rest := rfl
      by_cases ho : o.binary_hash = h ∧ o.chat_id = c
      · have hnew : chatOrders (saveChatMessage st o.binary_hash o.chat_id
            o.role o.content o.metadata) h c =
            (List.range (k + 1)).map Int.ofNat := by
          rw [hstep, if_pos ho, hk, nextOrder_intRange, intRange_succ]
        have hcount : countChatOps (o :: rest) h c = countChatOps rest h c + 1 := by
          unfold countChatOps
          rw [List.countP_cons]
          simp [ho.1, ho.2]
        rw [happ, ih _ h c (k + 1) hnew, hcount]
        congr 2
        omega
      · have hnew : chatOrders (saveChatMessage st o.binary_hash o.chat_id
            o.role o.content o.metadata) h c = (List.range k).map Int.ofNat := by
          rw [hstep, if_neg ho, hk]
        have hcount : countChatOps (o :: rest) h c = countChatOps rest h c := by
          unfold countChatOps
          rw [List.countP_cons]
          have : ¬ ((o.binary_hash == h) = true ∧ (o.chat_id == c) = true) := by
            intro hp
            exact ho ⟨beq_iff_eq.mp hp.1, beq_iff_eq.mp hp.2⟩
          simp only [Bool.and_eq_true]
          rw [if_neg this]
          omega
        rw [happ, ih _ h c k hnew, hcount]

/-! ## Native-table lemmas shared by the order-density and round-trip
theorems -/

theorem nativeChatRows_save (st : List NativeRow) (o : NativeSaveOp) (h c : Str) :
    nativeChatRows (saveNativeMessage st o.binary_hash o.chat_id o.payload
        o.provider o.role o.content_text o.message_type o.parent o.thread) h c =
      if o.binary_hash = h ∧ o.chat_id = c then
        nativeChatRows st h c ++
          [mkNativeRow o (nextOrder (nativeOrders st h c))]
      else nativeChatRows st h c := by
  unfold nativeChatRows saveNativeMessage mkNativeRow
  rw [List.filter_append]
  by_cases hh : o.binary_hash = h
  · by_cases hc : o.chat_id = c
    · rw [if_pos ⟨hh, hc⟩]
      congr 1
      rw [hh, hc]
      simp [nativeOrders, nativeChatRows]
    · have hne : ¬ (o.binary_hash = h ∧ o.chat_id = c) := fun hp => hc hp.2
      rw [if_neg hne]
      simp [hc]
  · have hne : ¬ (o.binary_hash = h ∧ o.chat_id = c) := fun hp => hh hp.1
    rw [if_neg hne]
    simp [hh]

theorem nativeChatRows_applyOps (ops : List NativeSaveOp) :
    ∀ (st : List NativeRow) (h c : Str) (k : Nat),
      nativeOrders st h c = (List.range k).map Int.ofNat →
      nativeChatRows (applyNativeOps st ops) h c =
        nativeChatRows st h c ++ buildChat h c ops k := by
  induction ops with
  | nil =>
      intro st h c k _
      simp [applyNativeOps, buildChat]
  | cons o rest ih =>
      intro st h c k hk
      have hstep := nativeChatRows_save st o h c
      have happ : applyNativeOps st (o :: rest) =
          applyNativeOps (saveNativeMessage st o.binary_hash o.chat_id
            o.payload o.provider o.role o.content_text o.message_type
            o.parent o.thread) rest := rfl
      by_cases ho : o.binary_hash = h ∧ o.chat_id = c
      · have hb : (o.binary_hash == h && o.chat_id == c) = true := by
          simp [ho.1, ho.2]
        have hord : nextOrder (nativeOrders st h c) = (k : Int) := by
          rw [hk, nextOrder_intRange]
        have hordnew : nativeOrders (saveNativeMessage st o.binary_hash
            o.chat_id o.payload o.provider o.role o.content_text
            o.message_type o.parent o.thread) h c =
            (List.range (k + 1)).map Int.ofNat := by
          unfold nativeOrders
          have h1 : (nativeChatRows st h c).map (·.message_order) =
              (List.range k).map Int.ofNat := hk
          rw [hstep, if_pos ho, List.map_append, h1, intRange_succ]
          congr 1
          simp [mkNativeRow, hord]
        rw [happ, ih _ h c (k + 1) hordnew, hstep, if_pos ho]
        show (nativeChatRows st h c ++ [mkNativeRow o (nextOrder (nativeOrders st h c))])
            ++ buildChat h c rest (k + 1) =
          nativeChatRows st h c ++ buildChat h c (o :: rest) k
        rw [List.append_assoc]
        congr 1
        rw [buildChat, if_pos hb]
        have : nextOrder (nativeOrders st h c) = (k : Int) := by
          rw [hk, nextOrder_intRange]
        rw [this]
        rfl
      · have hb : (o.binary_hash == h && o.chat_id == c) = false := by
          rw [Bool.and_eq_false_iff]
          by_cases hh : o.binary_hash = h
          · right
            exact beq_eq_false_iff_ne.mpr (fun hc => ho ⟨hh, hc⟩)
          · left
            exact beq_eq_false_iff_ne.mpr hh
        have hordnew : nativeOrders (saveNativeMessage st o.binary_hash
            o.chat_id o.payload o.provider o.role o.content_text
            o.message_type o.parent o.thread) h c =
            (List.range k).map Int.ofNat := by
          unfold nativeOrders
          rw [hstep, if_neg ho]
          exact hk
        rw [happ, ih _ h c k hordnew, hstep, if_neg ho]
        congr 1
        rw [buildChat, hb]
        simp

theorem buildChat_orders (h c : Str) (ops : List NativeSaveOp) :
    ∀ k : Nat, (buildChat h c ops k).map (·.message_order) =
      (List.range (countNativeOps ops h c)).map (fun i => ((k + i : Nat) : Int)) := by
  induction ops with
  | nil => intro k; simp [buildChat, countNativeOps]
  | cons o rest ih =>
      intro k
      unfold countNativeOps at ih ⊢
      rw [List.countP_cons]
      by_cases hb : (o.binary_hash == h && o.chat_id == c) = true
      · rw [buildChat, if_pos hb, if_pos hb, List.map_cons, ih (k + 1)]
        rw [List.range_succ_eq_map, List.map_cons, List.map_map]
        congr 1
        apply List.map_congr_left
        intro a _
        show ((k + 1 + a : Nat) : Int) = ((k + (a + 1) : Nat) : Int)
        congr 1
        omega
      · rw [buildChat, if_neg (by simpa using hb), ih k, if_neg hb]
        simp

theorem buildChat_pairwise (h c : Str) (ops : List NativeSaveOp) (k : Nat) :
    (buildChat h c ops k).Pairwise
      (fun a b => a.message_order ≤ b.message_order) := by
  have hmap : ((buildChat h c ops k).map (·.message_order)).Pairwise
      (fun a b => a ≤ b) := by
    rw [buildChat_orders, List.pairwise_map]
    apply (List.pairwise_lt_range _).imp
    intro a b hab
    omega
  rw [List.pairwise_map] at hmap
  exact hmap

theorem sortByOrder_eq_of_sorted {l : List NativeRow}
    (h : l.Pairwise (fun a b => a.message_order ≤ b.message_order)) :
    sortByOrder l = l := by
  induction l with
  | nil => rfl
  | cons a as ih =>
      have hp := List.pairwise_cons.mp h
      show insertByOrder a (sortByOrder as) = a :: as
      rw [ih hp.2]
      cases as with
      | nil => rfl
      | cons b bs =>
          have hab : a.message_order ≤ b.message_order :=
            hp.1 b (List.mem_cons_self b bs)
          simp [insertByOrder, hab]

theorem buildChat_payloads (h c : Str) (ops : List NativeSaveOp) :
    ∀ k : Nat, (buildChat h c ops k).map (·.native_message_data) =
      (ops.filter (fun o => o.binary_hash == h && o.chat_id == c)).map
        (·.payload) := by
  induction ops with
  | nil => intro k; simp [buildChat]
  | cons o rest ih =>
      intro k
      by_cases hb : (o.binary_hash == h && o.chat_id == c) = true
      · rw [buildChat, if_pos hb, List.map_cons, ih (k + 1),
          List.filter_cons, if_pos hb, List.map_cons]
        rfl
      · rw [buildChat, if_neg (by simpa using hb), ih k,
          List.filter_cons, if_neg (by simpa using hb)]

theorem buildChat_filter_provider (h c p : Str) (ops : List NativeSaveOp) :
    ∀ k : Nat,
      ((buildChat h c ops k).filter (fun r => r.provider_type == p)).map
          (·.native_message_data) =
        (ops.filter (fun o => o.binary_hash == h && o.chat_id == c &&
          o.provider.tag == p)).map (·.payload) := by
  induction ops with
  | nil => intro k; simp [buildChat]
  | cons o rest ih =>
      intro k
      by_cases hb : (o.binary_hash == h && o.chat_id == c) = true
      · rw [buildChat, if_pos hb]
        by_cases hp : (o.provider.tag == p) = true
        · rw [List.filter_cons, if_pos (show ((mkNativeRow o (k : Int)).provider_type == p) = true by simpa [mkNativeRow] using hp),
            List.map_cons,
            List.filter_cons, if_pos (by simp [hb, hp]), List.map_cons,
            ih (k + 1)]
          rfl
        · rw [List.filter_cons, if_neg (show ¬ ((mkNativeRow o (k : Int)).provider_type == p) = true by simpa [mkNativeRow] using hp),
            List.filter_cons, if_neg (by simp [hb, hp]), ih (k + 1)]
      · rw [buildChat, if_neg (by simpa using hb),
          List.filter_cons, if_neg (by simp [hb]), ih k]

/-- C1: starting from an empty chat, after any sequence of successful saves
(interleaved with saves to other chats), the stored `message_order` values
of the chat `(binary_hash, chat_id)` are exactly `0, 1, …, N−1` in order,
where `N` is the number of saves targeting that chat — each insert assigns
`max(existing)+1` (`0` on an empty chat), so the sequence is dense,
zero-based, without gaps or duplicates; the first conjunct covers
`save_chat_message` (`BNChatHistory`), the second `save_native_message`
(`BNChatMessages`). -/
theorem c1_message_order_dense :
    (∀ (ops : List ChatSaveOp) (st : List ChatRow) (h c : Str),
      chatOrders st h c = [] →
      chatOrders (applyChatOps st ops) h c =
        (List.range (countChatOps ops h c)).map Int.ofNat) ∧
    (∀ (ops : List NativeSaveOp) (st : List NativeRow) (h c : Str),
      nativeOrders st h c = [] →
      nativeOrders (applyNativeOps st ops) h c =
        (List.range (countNativeOps ops h c)).map Int.ofNat) := by
  constructor
  · intro ops st h c h0
    have hmain := chatOrders_applyOps ops st h c 0 (by simpa using h0)
    simpa using hmain
  · intro ops st h c h0
    have hempty : nativeChatRows st h c = [] := List.map_eq_nil_iff.mp h0
    have hrows : nativeChatRows (applyNativeOps st ops) h c =
        nativeChatRows st h c ++ buildChat h c ops 0 :=
      nativeChatRows_applyOps ops st h c 0 (by simpa using h0)
    unfold nativeOrders
    rw [hrows, hempty, List.nil_append, buildChat_orders]
    apply List.map_congr_left
    intro a _
    simp

/-- Witness for C1: two saves into an empty chat yield orders `[0, 1]`. -/
theorem c1_message_order_dense_witness :
    chatOrders (applyChatOps []
        [⟨str "h", str "c", str "user", str "q", none⟩,
         ⟨str "h", str "c", str "assistant", str "a", none⟩]) (str "h") (str "c") =
      (List.range (countChatOps
        [⟨str "h", str "c", str "user", str "q", none⟩,
         ⟨str "h", str "c", str "assistant", str "a", none⟩] (str "h") (str "c"))).map
        Int.ofNat ∧
    nativeOrders (applyNativeOps []
        [⟨str "h", str "c", .jstr (str "m1"), .openai, str "user", [], str "text",
          none, none⟩]) (str "h") (str "c") =
      (List.range (countNativeOps
        [⟨str "h", str "c", .jstr (str "m1"), .openai, str "user", [], str "text",
          none, none⟩] (str "h") (str "c"))).map Int.ofNat :=
  ⟨c1_message_order_dense.1
     [⟨str "h", str "c", str "user", str "q", none⟩,
      ⟨str "h", str "c", str "assistant", str "a", none⟩] [] (str "h") (str "c") rfl,
   c1_message_order_dense.2
     [⟨str "h", str "c", .jstr (str "m1"), .openai, str "user", [], str "text",
       none, none⟩] [] (str "h") (str "c") rfl⟩

/-- C4: round-trip of the native payload.  For any sequence of successful
`save_native_message` calls into an initially empty chat, the payload lists
returned by the replay-format reads are exactly the payloads passed to the
saves, unchanged and in save order: `get_native_messages_for_provider`
returns the payloads of the saves carrying that provider tag, and
`get_native_messages` (unfiltered) returns every saved payload — regardless
of the derived `role`/`content_text`/`message_type` values, which are
universally quantified inside the save operations. -/
theorem c4_native_payload_round_trip :
    ∀ (ops : List NativeSaveOp) (st : List NativeRow) (h c p : Str),
      nativeChatRows st h c = [] →
      getNativeMessagesForProvider (applyNativeOps st ops) h c p =
        (ops.filter (fun o => o.binary_hash == h && o.chat_id == c &&
          o.provider.tag == p)).map (·.payload) ∧
      (getNativeMessages (applyNativeOps st ops) h c none).map
          (·.native_message_data) =
        (ops.filter (fun o => o.binary_hash == h && o.chat_id == c)).map
          (·.payload) := by
  intro ops st h c p h0
  have hrows : nativeChatRows (applyNativeOps st ops) h c =
      buildChat h c ops 0 := by
    rw [nativeChatRows_applyOps ops st h c 0 (by simp [nativeOrders, h0]),
      h0, List.nil_append]
  constructor
  · unfold getNativeMessagesForProvider
    have hfilter : (applyNativeOps st ops).filter
        (fun r => r.binary_hash == h && r.chat_id == c &&
          r.provider_type == p) =
        (nativeChatRows (applyNativeOps st ops) h c).filter
          (fun r => r.provider_type == p) := by
      unfold nativeChatRows
      rw [List.filter_filter]
      apply List.filter_congr
      intro r _
      cases (r.binary_hash == h) <;> cases (r.chat_id == c) <;>
        cases (r.provider_type == p) <;> rfl
    rw [hfilter, hrows]
    have hpair : ((buildChat h c ops 0).filter
        (fun r => r.provider_type == p)).Pairwise
        (fun a b => a.message_order ≤ b.message_order) :=
      List.Pairwise.sublist (List.filter_sublist _) (buildChat_pairwise h c ops 0)
    rw [sortByOrder_eq_of_sorted hpair, buildChat_filter_provider]
  · unfold getNativeMessages
    rw [hrows, sortByOrder_eq_of_sorted (buildChat_pairwise h c ops 0),
      buildChat_payloads]

/-- Witness for C4: one OpenAI save and one Anthropic save into an empty
chat; the provider-filtered read returns exactly the OpenAI payload and the
unfiltered read returns both payloads in order. -/
theorem c4_native_payload_round_trip_witness :
    getNativeMessagesForProvider (applyNativeOps [] twoNativeSaves)
        (str "h") (str "c") (str "openai") =
      (twoNativeSaves.filter
        (fun o => o.binary_hash == str "h" && o.chat_id == str "c" &&
          o.provider.tag == str "openai")).map (·.payload) ∧
    (getNativeMessages (applyNativeOps [] twoNativeSaves)
        (str "h") (str "c") none).map (·.native_message_data) =
      (twoNativeSaves.filter
        (fun o => o.binary_hash == str "h" && o.chat_id == str "c")).map
        (·.payload) :=
  c4_native_payload_round_trip twoNativeSaves [] (str "h") (str "c")
    (str "openai") rfl

/-! ## C2 -/

theorem contextRowLive_eq_not_expired (r : ContextRow) (now : Str) :
    contextRowLive r now = !contextRowExpired r now := by
  unfold contextRowLive contextRowExpired strGtB strLeB
  cases r.expires_at with
  | none => rfl
  | some e => simp

/-- C2 evidence: the expiry filter compares `datetime.isoformat()` output
(`'T'` separator) with SQLite `CURRENT_TIMESTAMP` (`' '` separator) as
TEXT, and `'T' > ' '` byte-wise, so a row whose expiry lies one hour in the
chronological past but on the same calendar day is returned by
`get_context_cache` and is not deleted by `cleanup_expired_context` —
against the claim (and the functions' own docstrings and the `ttl_hours`
interface).  The final conjunct shows the half of the claim that does hold:
the sweep deletes exactly the rows the read would refuse, and returns their
count. -/
theorem c2_expiry_comparison_bug :
    chronoLt ctxExpiry ctxNow = true ∧
    getContextCache [ctxRow] (str "h") 0 (sqlFormat ctxNow) =
      some (.jstr (str "ctx")) ∧
    cleanupExpiredContext [ctxRow] (sqlFormat ctxNow) = ([ctxRow], 0) ∧
    (∀ (st : List ContextRow) (now : Str),
      cleanupExpiredContext st now =
        (st.filter (fun r => contextRowLive r now),
         st.countP (fun r => !contextRowLive r now))) := by
  refine ⟨rfl, rfl, rfl, ?_⟩
  intro st now
  unfold cleanupExpiredContext
  refine Prod.ext ?_ ?_
  · apply List.filter_congr
    intro r _
    rw [contextRowLive_eq_not_expired]
  · show List.countP (fun r => contextRowExpired r now) st =
      List.countP (fun r => !contextRowLive r now) st
    apply List.countP_congr
    intro r _
    rw [contextRowLive_eq_not_expired]
    simp

/-! ## C7 -/

theorem takeWhile_append_all {α : Type} {p : α → Bool} {rs post : List α}
    (h : ∀ x ∈ rs, p x = true)
    (hpost : post.head?.all (fun q => !p q) = true) :
    (rs ++ post).takeWhile p = rs ∧ (rs ++ post).dropWhile p = post := by
  induction rs with
  | nil =>
      simp only [List.nil_append]
      cases post with
      | nil => simp
      | cons q qs =>
          simp only [List.head?_cons, Option.all_some, Bool.not_eq_true'] at hpost
          simp [List.takeWhile_cons, List.dropWhile_cons, hpost]
  | cons x xs ih =>
      have hx : p x = true := h x (List.mem_cons_self x xs)
      have hxs : ∀ y ∈ xs, p y = true := fun y hy => h y (List.mem_cons_of_mem x hy)
      have ih2 := ih hxs
      simp [List.takeWhile_cons, List.dropWhile_cons, hx, ih2.1, ih2.2]

theorem groupDedupF_fuel_irrel (f1 : Nat) :
    ∀ (l : List DMsg) (f2 : Nat), l.length ≤ f1 → l.length ≤ f2 →
      groupDedupF f1 l = groupDedupF f2 l := by
  induction f1 with
  | zero =>
      intro l f2 h1 _
      have : l = [] := List.eq_nil_of_length_eq_zero (Nat.le_zero.mp h1)
      subst this
      cases f2 <;> rfl
  | succ f ih =>
      intro l f2 h1 h2
      cases l with
      | nil => cases f2 <;> rfl
      | cons m rest =>
          cases f2 with
          | zero => simp at h2
          | succ g =>
              simp only [List.length_cons, Nat.succ_le_succ_iff] at h1 h2
              show groupDedupF (f + 1) (m :: rest) = groupDedupF (g + 1) (m :: rest)
              rw [groupDedupF, groupDedupF]
              have hdrop : (rest.dropWhile (fun r => r.role == str "assistant")).length
                  ≤ rest.length :=
                (List.dropWhile_sublist _).length_le
              by_cases hu : (m.role == str "user") = true
              · simp only [hu, if_true]
                rw [ih rest g h1 h2]
              · rw [Bool.not_eq_true] at hu
                by_cases ha : (m.role == str "assistant") = true
                · simp only [hu, ha, Bool.false_eq_true, if_false, if_true]
                  rw [ih _ g (le_trans hdrop h1) (le_trans hdrop h2)]
                · rw [Bool.not_eq_true] at ha
                  simp only [hu, ha, Bool.false_eq_true, if_false]
                  rw [ih rest g h1 h2]

theorem groupDedupF_no_assistant {msgs : List DMsg} :
    ∀ {fuel : Nat}, msgs.length ≤ fuel →
      (∀ m ∈ msgs, ¬ m.role = str "assistant") → groupDedupF fuel msgs = msgs := by
  induction msgs with
  | nil => intro fuel _ _; cases fuel <;> rfl
  | cons m rest ih =>
      intro fuel hf h
      cases fuel with
      | zero => simp at hf
      | succ f =>
          simp only [List.length_cons, Nat.succ_le_succ_iff] at hf
          have hm : ¬ m.role = str "assistant" := h m (List.mem_cons_self m rest)
          have hrest : ∀ x ∈ rest, ¬ x.role = str "assistant" :=
            fun x hx => h x (List.mem_cons_of_mem m hx)
          have ha : (m.role == str "assistant") = false := by
            exact beq_eq_false_iff_ne.mpr hm
          rw [groupDedupF]
          by_cases hu : (m.role == str "user") = true
          · simp only [hu, if_true]
            rw [ih hf hrest]
          · rw [Bool.not_eq_true] at hu
            simp only [hu, ha, Bool.false_eq_true, if_false]
            rw [ih hf hrest]

/-- C7: the transcript synthesizer collapses each maximal run of
consecutive assistant rows to the left fold of the better-of-two reduction
(strictly longer stripped content wins; on a tie the higher
`message_order` wins), and passes non-assistant rows through untouched; in
particular two consecutive assistant rows with contents `""` and
`"Result: done"` collapse to the second row. -/
theorem c7_assistant_run_collapse :
    groupAndDeduplicateMessages [emptyAssistantRow, resultAssistantRow] =
      [resultAssistantRow] ∧
    (∀ msgs : List DMsg, (∀ m ∈ msgs, ¬ m.role = str "assistant") →
      groupAndDeduplicateMessages msgs = msgs) ∧
    (∀ (m : DMsg) (rs post : List DMsg),
      m.role = str "assistant" →
      (∀ x ∈ rs, x.role = str "assistant") →
      post.head?.all (fun q => !(q.role == str "assistant")) = true →
      groupAndDeduplicateMessages (m :: (rs ++ post)) =
        (rs.foldl chooseBetterAssistantMessage m) ::
          groupAndDeduplicateMessages post) := by
  refine ⟨rfl, ?_, ?_⟩
  · intro msgs h
    exact groupDedupF_no_assistant le_rfl h
  · intro m rs post hm hrs hpost
    have hp : ∀ x ∈ rs, (x.role == str "assistant") = true := by
      intro x hx
      exact beq_iff_eq.mpr (hrs x hx)
    have htw := takeWhile_append_all hp hpost
    show groupDedupF (m :: (rs ++ post)).length (m :: (rs ++ post)) = _
    rw [List.length_cons, groupDedupF]
    have hu : (m.role == str "user") = false := by
      rw [hm]; rfl
    have ha : (m.role == str "assistant") = true := by
      rw [hm]; rfl
    simp only [hu, ha, Bool.false_eq_true, if_false, if_true]
    rw [htw.1, htw.2]
    congr 1
    apply groupDedupF_fuel_irrel
    · simp [List.length_append]
    · exact le_rfl

/-- Witness for C7 at concrete rows. -/
theorem c7_assistant_run_collapse_witness :
    groupAndDeduplicateMessages [userRow] = [userRow] ∧
    groupAndDeduplicateMessages
        (emptyAssistantRow :: ([resultAssistantRow] ++ [userRow])) =
      ([resultAssistantRow].foldl chooseBetterAssistantMessage emptyAssistantRow) ::
        groupAndDeduplicateMessages [userRow] :=
  ⟨c7_assistant_run_collapse.2.1 [userRow] (by decide),
   c7_assistant_run_collapse.2.2 emptyAssistantRow [resultAssistantRow] [userRow]
     rfl (by decide) (by decide)⟩

/-! ## C3 -/

theorem stripR_append (xs ys : Str) :
    stripR (xs ++ ys) = if stripR ys = [] then stripR xs else xs ++ stripR ys := by
  unfold stripR
  rw [List.reverse_append, List.dropWhile_append]
  by_cases hy : (ys.reverse.dropWhile isWs).isEmpty = true
  · have hy' : (ys.reverse.dropWhile isWs).reverse = [] := by
      rw [List.isEmpty_iff] at hy
      rw [hy]
      rfl
    rw [if_pos hy, if_pos hy']
  · have hy' : ¬ (ys.reverse.dropWhile isWs).reverse = [] := by
      rw [List.isEmpty_iff] at hy
      simpa using hy
    rw [if_neg hy, if_neg hy', List.reverse_append, List.reverse_reverse]

theorem drop_append_cons (xs ys : Str) (c : Char) :
    (xs ++ c :: ys).drop (xs.length + 1) = ys := by
  have hsplit : xs ++ c :: ys = (xs ++ [c]) ++ ys := by simp
  have hlen : xs.length + 1 = (xs ++ [c]).length := by simp
  rw [hsplit, hlen, List.drop_left]

theorem stripL_append_cons_of_not_ws {c : Char} (h : isWs c = false)
    (t : Str) : stripL (c :: t) = c :: t := by
  simp [stripL, List.dropWhile_cons, h]

theorem dropLeadingNewlines_stripL (s : Str) :
    dropLeadingNewlines (stripL s) = stripL s := by
  unfold dropLeadingNewlines stripL
  apply dropWhile_dropWhile_of_imp
  intro a ha
  have : a = '\n' := by simpa using ha
  rw [this]
  rfl

theorem cleanAssistantContent_strip_marker (hd b : Str)
    (h1 : ']' ∉ hd) (h2 : strStarts (str "[Tools:") (pyStrip b) = false) :
    cleanAssistantContent (str "[Tools:" ++ hd ++ [']'] ++ b) =
      cleanAssistantContent b := by
  have hnotmem : ']' ∉ str "[Tools:" ++ hd := by
    intro hmem
    rcases List.mem_append.mp hmem with hin | hin
    · exact absurd hin (by decide)
    · exact h1 hin
  have hM : stripR (str "[Tools:" ++ hd ++ [']']) = str "[Tools:" ++ hd ++ [']'] := by
    rw [stripR_append]
    simp [stripR, isWs]
  by_cases hb : stripR b = []
  · -- the trailing content is all whitespace
    have hfull : pyStrip (str "[Tools:" ++ hd ++ [']'] ++ b) =
        str "[Tools:" ++ hd ++ [']'] := by
      unfold pyStrip
      rw [stripR_append, if_pos hb, hM]
      exact stripL_append_cons_of_not_ws (by decide) _
    have hclean_b : pyStrip b = [] := by
      unfold pyStrip
      rw [hb]
      rfl
    unfold cleanAssistantContent
    rw [hfull, hclean_b]
    dsimp only
    have hstarts : strStarts (str "[Tools:") (str "[Tools:" ++ hd ++ [']']) = true := by
      rw [List.append_assoc]
      exact strStarts_append_self _ _
    have hcont : (str "[Tools:" ++ hd ++ [']']).contains ']' = true := by
      apply List.elem_eq_true_of_mem
      exact List.mem_append.mpr (Or.inr (List.mem_singleton.mpr rfl))
    rw [hstarts, hcont]
    simp only [Bool.and_self, if_true]
    have hidx : charIdx ']' (str "[Tools:" ++ hd ++ [']']) =
        some (str "[Tools:" ++ hd).length := by
      have : str "[Tools:" ++ hd ++ [']'] = (str "[Tools:" ++ hd) ++ ']' :: [] := rfl
      rw [this]
      exact charIdx_append_of_not_mem [] hnotmem
    rw [hidx]
    dsimp only
    have hdrop : (str "[Tools:" ++ hd ++ [']']).drop
        ((str "[Tools:" ++ hd).length + 1) = [] :=
      drop_append_cons (str "[Tools:" ++ hd) [] ']'
    rw [hdrop]
    rfl
  · -- the trailing content has a non-whitespace character
    have hfull : pyStrip (str "[Tools:" ++ hd ++ [']'] ++ b) =
        (str "[Tools:" ++ hd) ++ ']' :: stripR b := by
      unfold pyStrip
      rw [stripR_append, if_neg hb]
      have : str "[Tools:" ++ hd ++ [']'] ++ stripR b =
          (str "[Tools:" ++ hd) ++ ']' :: stripR b := by simp
      rw [this]
      exact stripL_append_cons_of_not_ws (by decide) _
    unfold cleanAssistantContent
    rw [hfull]
    dsimp only
    have hstarts : strStarts (str "[Tools:")
        ((str "[Tools:" ++ hd) ++ ']' :: stripR b) = true := by
      rw [List.append_assoc]
      exact strStarts_append_self _ _
    have hcont : ((str "[Tools:" ++ hd) ++ ']' :: stripR b).contains ']' = true := by
      apply List.elem_eq_true_of_mem
      exact List.mem_append.mpr (Or.inr (List.mem_cons_self _ _))
    rw [hstarts, hcont]
    simp only [Bool.and_self, if_true]
    rw [charIdx_append_of_not_mem (stripR b) hnotmem]
    dsimp only
    rw [drop_append_cons (str "[Tools:" ++ hd) (stripR b) ']']
    have hps : pyStrip (stripR b) = pyStrip b := by
      unfold pyStrip
      rw [stripR_idem]
    rw [hps, h2]
    have hpb : pyStrip b = stripL (stripR b) := rfl
    rw [hpb, dropLeadingNewlines_stripL]
    simp

/-- C3 counterexample: re-rendering previously rendered content does
double-prefix.  The renderer emits the single-call marker `[Tool: …]`,
which the stripper (which recognizes only a leading `[Tools:`) does not
remove, so formatting a message whose `content_text` is itself the output
of a prior rendering prepends the tool block a second time. -/
theorem c3_double_prefix_cex :
    formatMessageForDisplay (str "assistant") [] (str "text") (str "openai")
        fPayload = str "[Tool: f(a=1)]" ∧
    formatMessageForDisplay (str "assistant") (str "[Tool: f(a=1)]")
        (str "text") (str "openai") fPayload =
      str "[Tool: f(a=1)]" ++ str "\n\n" ++ str "[Tool: f(a=1)]" ∧
    formatMessageForDisplay (str "assistant") (str "[Tool: f(a=1)]")
        (str "text") (str "openai") fPayload ≠ str "[Tool: f(a=1)]" := by
  refine ⟨rfl, rfl, ?_⟩
  decide

/-- C3 amended: only a leading bracketed `[Tools: …]` marker (the legacy
rendered prefix) is stripped from an assistant row's `content_text` before
re-rendering: for content of the form `"[Tools:" ++ hd ++ "]" ++ body`
(with no `]` inside `hd` and `body` not itself starting with the marker
after stripping), the rendering equals the rendering of `body` alone.  The
current renderer's own outputs (`[Tool: …]`, `[Tools called:]`) are not
recognized by the stripper, so re-rendering them double-prefixes (see the
counterexample); the synthesizer never writes back to the rows, so running
it twice over the same stored rows trivially yields identical output. -/
theorem c3_marker_strip_amended (hd b : Str) (nd : Json) (p : Str)
    (h1 : ']' ∉ hd) (h2 : strStarts (str "[Tools:") (pyStrip b) = false) :
    formatAssistantMessageForDisplay (str "[Tools:" ++ hd ++ [']'] ++ b) nd p =
      formatAssistantMessageForDisplay b nd p := by
  unfold formatAssistantMessageForDisplay
  rw [cleanAssistantContent_strip_marker hd b h1 h2]

/-- Witness for C3 at a concrete marker and body. -/
theorem c3_marker_strip_amended_witness :
    formatAssistantMessageForDisplay
        (str "[Tools:" ++ str " legacy" ++ [']'] ++ str "hello")
        (.jobj []) (str "openai") =
      formatAssistantMessageForDisplay (str "hello") (.jobj []) (str "openai") :=
  c3_marker_strip_amended (str " legacy") (str "hello") (.jobj [])
    (str "openai") (by decide) (by decide)

/-! ## C5 -/

/-- C5 counterexample: the claim "at most one SystemPrompts row has
`is_active = true` in every reachable state" is false.  `SystemPrompts` has
no uniqueness constraint on `version`, so after saving two prompts under
the same version string and activating that version, two rows are active. -/
theorem c5_single_active_cex :
    activeCount (applyPromptOps []
      [.save (str "a") (str "v1"), .save (str "b") (str "v1"),
       .setActive (str "v1")]) = 2 ∧
    ¬ activeCount (applyPromptOps []
      [.save (str "a") (str "v1"), .save (str "b") (str "v1"),
       .setActive (str "v1")]) ≤ 1 := by
  constructor
  · rfl
  · decide

/-- C5 amended: `set_active_system_prompt(v)` activates exactly the rows
whose `version` is `v` — the active count afterwards equals the number of
rows bearing that version (so it is at most one exactly when at most one
row bears the version, and the invariant holds only while version strings
are unique); the reported boolean is true iff some row bears the version;
`save_system_prompt` inserts an inactive row and preserves the active
count. -/
theorem c5_active_rows_amended (st : List PromptRow) (v p w : Str) :
    activeCount (setActiveSystemPrompt st v).1 = versionCount st v ∧
    ((setActiveSystemPrompt st v).2 = true ↔ 0 < versionCount st v) ∧
    activeCount (saveSystemPrompt st p w) = activeCount st ∧
    (versionCount st v ≤ 1 → activeCount (setActiveSystemPrompt st v).1 ≤ 1) := by
  have hcount : activeCount (setActiveSystemPrompt st v).1 = versionCount st v := by
    unfold activeCount setActiveSystemPrompt versionCount
    simp only [List.map_map, List.countP_map]
    apply List.countP_congr
    intro r _
    by_cases hv : r.version == v
    · simp [Function.comp, hv]
    · simp [Function.comp, hv]
  refine ⟨hcount, ?_, ?_, ?_⟩
  · unfold setActiveSystemPrompt versionCount
    rw [List.any_eq_true, List.countP_pos_iff]
  · unfold activeCount saveSystemPrompt
    simp
  · intro hle
    rw [hcount]
    exact hle

/-- Witness for C5 at a concrete state. -/
theorem c5_active_rows_amended_witness :
    activeCount (setActiveSystemPrompt [⟨str "a", str "v1", false⟩] (str "v1")).1 =
      versionCount [⟨str "a", str "v1", false⟩] (str "v1") ∧
    activeCount (setActiveSystemPrompt [⟨str "a", str "v1", false⟩] (str "v1")).1 ≤ 1 :=
  ⟨(c5_active_rows_amended [⟨str "a", str "v1", false⟩] (str "v1") (str "p") (str "w")).1,
   (c5_active_rows_amended [⟨str "a", str "v1", false⟩] (str "v1") (str "p") (str "w")).2.2.2
     (by decide)⟩

/-! ## C6 -/

/-- C6 counterexample: calling `set_active_llm_provider` with a name for
which no provider row exists does not leave the previously active provider
untouched — in a state whose single provider `A` is active, activating the
missing name `B` deactivates `A` — and the call returns `True` rather than
reporting that no update occurred. -/
theorem c6_nonexistent_provider_cex :
    (setActiveLLMProvider oneProviderState (str "B")).1.providers.map
        (fun p => (p.name, p.is_active)) = [(str "A", false)] ∧
    (setActiveLLMProvider oneProviderState (str "B")).2 = true := ⟨rfl, rfl⟩

/-- C6 amended: calling `set_active_llm_provider` with a provider name for
which no `llm_providers` row exists deactivates every provider (afterwards
none is active), overwrites the saved `active_llm_provider` setting with
the nonexistent name, and returns `True` unconditionally (the rowcount of
the activating UPDATE is not consulted). -/
theorem c6_nonexistent_provider_amended (st : SettingsState) (name : Str)
    (h : ∀ p ∈ st.providers, ¬ p.name = name) :
    (setActiveLLMProvider st name).2 = true ∧
    activeProviderCount (setActiveLLMProvider st name).1 = 0 ∧
    getSettingValue (setActiveLLMProvider st name).1.settings
        (str "active_llm_provider") = some name := by
  refine ⟨rfl, ?_, ?_⟩
  · unfold activeProviderCount setActiveLLMProvider
    simp only [List.map_map, List.countP_map]
    rw [List.countP_eq_zero]
    intro p hp
    have hne := h p hp
    simp [Function.comp, hne]
  · unfold setActiveLLMProvider getSettingValue upsertSetting
    simp only []
    rw [List.find?_append]
    have h1 : (st.settings.filter
        (fun kv => !(kv.1 == str "active_llm_provider"))).find?
        (fun kv => kv.1 == str "active_llm_provider") = none := by
      rw [List.find?_eq_none]
      intro x hx
      have hmem := List.of_mem_filter hx
      simp at hmem ⊢
      exact hmem
    rw [h1]
    simp [List.find?]

/-- Witness for C6 at the concrete one-provider state. -/
theorem c6_nonexistent_provider_amended_witness :
    (setActiveLLMProvider oneProviderState (str "B")).2 = true ∧
    activeProviderCount (setActiveLLMProvider oneProviderState (str "B")).1 = 0 ∧
    getSettingValue (setActiveLLMProvider oneProviderState (str "B")).1.settings
        (str "active_llm_provider") = some (str "B") :=
  c6_nonexistent_provider_amended oneProviderState (str "B") (by decide)

end BinAssist
